import Mathlib

/-!
Shallow embedding of the expense-tracker core (transaction classifier,
filter/paginate pipeline, statistics aggregator, category registry) and
proofs of its specified properties.

Transactions are modelled with exact rational amounts; JavaScript `Map`
objects are modelled as association lists with first-occurrence lookup and
replacement, and IndexedDB string comparison is modelled as code-point
lexicographic comparison on the character list.
-/

/-- The central entity, after `TransactionSchema` in `types.ts`.  The `from`
field is renamed `from_` because `from` is a keyword. -/
structure Transaction where
  id : Nat
  date : String
  category : String
  subcategory : String
  amount : ℚ
  from_ : String
  to_ : String
  note : Option String
  tag : Option String
  track : Bool
deriving Repr, DecidableEq

/-- Derived classification of a transaction (`TransactionType` in `types.ts`). -/
inductive TransactionType where
  | income
  | expense
  | transfer
deriving Repr, DecidableEq

/-- `getTransactionType` from the transactions hook: income when the category
is the salary category in either locale or the amount is positive, else
transfer when both account labels are non-empty (string truthiness), else
expense. -/
def getTransactionType (tx : Transaction) : TransactionType :=
  if tx.category = "Salary" ∨ tx.category = "Stipendio" ∨ 0 < tx.amount then
    TransactionType.income
  else if tx.from_ ≠ "" ∧ tx.to_ ≠ "" then
    TransactionType.transfer
  else
    TransactionType.expense

/-- C1: the derived kind is computed in strict precedence order — `income`
iff the category is 'Salary' or 'Stipendio' or the amount is positive;
otherwise `transfer` iff both `from` and `to` are non-empty; otherwise
`expense`; in particular a positive-amount transaction with both account
labels non-empty is classified `income`, not `transfer`. -/
theorem getTransactionType_precedence (tx : Transaction) :
    (getTransactionType tx = TransactionType.income ↔
      (tx.category = "Salary" ∨ tx.category = "Stipendio" ∨ 0 < tx.amount)) ∧
    (getTransactionType tx = TransactionType.transfer ↔
      (¬(tx.category = "Salary" ∨ tx.category = "Stipendio" ∨ 0 < tx.amount) ∧
        tx.from_ ≠ "" ∧ tx.to_ ≠ "")) ∧
    (getTransactionType tx = TransactionType.expense ↔
      (¬(tx.category = "Salary" ∨ tx.category = "Stipendio" ∨ 0 < tx.amount) ∧
        ¬(tx.from_ ≠ "" ∧ tx.to_ ≠ ""))) ∧
    (0 < tx.amount ∧ tx.from_ ≠ "" ∧ tx.to_ ≠ "" →
      getTransactionType tx = TransactionType.income) := by
  unfold getTransactionType
  by_cases h1 : tx.category = "Salary" ∨ tx.category = "Stipendio" ∨ 0 < tx.amount
  · simp [h1]
  · by_cases h2 : tx.from_ ≠ "" ∧ tx.to_ ≠ ""
    · simp only [if_neg h1, if_pos h2]
      exact ⟨by simp [h1], by simp [h1, h2], by simp [h2],
        fun h => absurd (Or.inr (Or.inr h.1)) h1⟩
    · simp only [if_neg h1, if_neg h2]
      exact ⟨by simp [h1], by simp [h2], by simp [h1, h2],
        fun h => absurd (Or.inr (Or.inr h.1)) h1⟩

/-- Witness for C1 at a concrete positive-amount transaction with both
account labels set: it is classified `income`. -/
theorem getTransactionType_precedence_witness :
    getTransactionType
      { id := 1, date := "2024-03-05", category := "Groceries",
        subcategory := "Supermarket", amount := 5, from_ := "Checking",
        to_ := "Store", note := none, tag := none, track := true } =
      TransactionType.income :=
  (getTransactionType_precedence _).2.2.2 ⟨by norm_num, by decide, by decide⟩

/-- C9: the classifier is total on zero-amount transactions — with amount 0
and a non-salary category, the result is `transfer` when both labels are
non-empty and `expense` otherwise. -/
theorem getTransactionType_zero_amount (tx : Transaction)
    (h0 : tx.amount = 0) (hs : tx.category ≠ "Salary")
    (hst : tx.category ≠ "Stipendio") :
    getTransactionType tx =
      (if tx.from_ ≠ "" ∧ tx.to_ ≠ "" then TransactionType.transfer
       else TransactionType.expense) := by
  unfold getTransactionType
  rw [if_neg]
  intro h
  rcases h with h | h | h
  · exact hs h
  · exact hst h
  · rw [h0] at h
    exact lt_irrefl 0 h

/-- Witness for C9: a zero-amount transaction with both labels set is a
transfer. -/
theorem getTransactionType_zero_amount_witness :
    getTransactionType
      { id := 2, date := "2024-04-01", category := "Other",
        subcategory := "Miscellaneous", amount := 0, from_ := "A",
        to_ := "B", note := none, tag := none, track := true } =
      TransactionType.transfer := by
  have h := getTransactionType_zero_amount
    { id := 2, date := "2024-04-01", category := "Other",
      subcategory := "Miscellaneous", amount := 0, from_ := "A",
      to_ := "B", note := none, tag := none, track := true }
    rfl (by decide) (by decide)
  simpa using h

/-- `totalPages` as computed by the transactions hook:
`Math.ceil(filteredTransactions.length / pageSize)` (no minimum applied). -/
def totalPages (filteredCount pageSize : ℕ) : ℤ :=
  ⌈(filteredCount : ℚ) / (pageSize : ℚ)⌉

/-- The page slice of the transactions hook:
`filteredTransactions.slice((page - 1) * pageSize, (page - 1) * pageSize + pageSize)`. -/
def paginatedTransactions (filtered : List Transaction) (page pageSize : ℕ) :
    List Transaction :=
  (filtered.drop ((page - 1) * pageSize)).take pageSize

lemma totalPages_formula (N P : ℕ) (hP : 0 < P) :
    totalPages N P = ((N + P - 1) / P : ℕ) := by
  have hq := Nat.div_add_mod (N + P - 1) P
  have hr : (N + P - 1) % P < P := Nat.mod_lt _ hP
  set q := (N + P - 1) / P with hqdef
  set r := (N + P - 1) % P with hrdef
  have hA1 : N ≤ P * q := by omega
  have hA2 : P * q < N + P := by omega
  have hP' : (0 : ℚ) < (P : ℚ) := by exact_mod_cast hP
  rw [totalPages, Int.ceil_eq_iff]
  constructor
  · rw [lt_div_iff₀ hP']
    have h2 : ((P : ℚ) * q) < (N : ℚ) + P := by exact_mod_cast hA2
    push_cast
    nlinarith
  · rw [div_le_iff₀ hP']
    have h1 : (N : ℚ) ≤ (P : ℚ) * q := by exact_mod_cast hA1
    push_cast
    nlinarith

/-- C2 counterexample: on an empty filtered list with the default page size
20, `totalPages` is 0, not the claimed minimum of 1. -/
theorem totalPages_empty_counterexample :
    totalPages 0 20 = 0 ∧ totalPages 0 20 ≠ 1 := by
  have h : totalPages 0 20 = 0 := by
    rw [totalPages]
    norm_num
  exact ⟨h, by rw [h]; decide⟩

/-- C2 amended: `totalPages` equals `ceil(N / P)` with no minimum-1 floor
(equal to the natural number `(N + P - 1) / P`); in particular it is 0, not
1, when the filtered list is empty. -/
theorem totalPages_eq_ceil (N P : ℕ) (hP : 0 < P) :
    totalPages N P = ((N + P - 1) / P : ℕ) ∧ (N = 0 → totalPages N P = 0) := by
  refine ⟨totalPages_formula N P hP, fun hN => ?_⟩
  rw [totalPages_formula N P hP, hN]
  have : (0 + P - 1) / P = 0 := Nat.div_eq_of_lt (by omega)
  rw [this]
  rfl

/-- Witness for C2's amended claim: 45 filtered transactions at page size 20
give 3 pages, and an empty list gives 0 pages. -/
theorem totalPages_eq_ceil_witness : totalPages 45 20 = 3 ∧ totalPages 0 20 = 0 := by
  have h := totalPages_eq_ceil 45 20 (by norm_num)
  have h0 := totalPages_eq_ceil 0 20 (by norm_num)
  exact ⟨by rw [h.1]; norm_num, h0.2 rfl⟩

/-- C10: requesting any page strictly beyond `totalPages` yields an empty
page rather than failing — the slice is total. -/
theorem paginatedTransactions_out_of_range (filtered : List Transaction)
    (page pageSize : ℕ) (hP : 0 < pageSize)
    (hpage : totalPages filtered.length pageSize < (page : ℤ)) :
    paginatedTransactions filtered page pageSize = [] := by
  have hform := totalPages_formula filtered.length pageSize hP
  rw [hform] at hpage
  have hq : (filtered.length + pageSize - 1) / pageSize < page := by
    exact_mod_cast hpage
  have hdm := Nat.div_add_mod (filtered.length + pageSize - 1) pageSize
  have hr : (filtered.length + pageSize - 1) % pageSize < pageSize :=
    Nat.mod_lt _ hP
  have hA1 : filtered.length ≤
      pageSize * ((filtered.length + pageSize - 1) / pageSize) := by omega
  have hlen : filtered.length ≤ (page - 1) * pageSize := by
    calc filtered.length
        ≤ pageSize * ((filtered.length + pageSize - 1) / pageSize) := hA1
      _ ≤ pageSize * (page - 1) := Nat.mul_le_mul_left pageSize (by omega)
      _ = (page - 1) * pageSize := Nat.mul_comm _ _
  rw [paginatedTransactions, List.drop_eq_nil_of_le hlen, List.take_nil]

/-- Witness for C10: one transaction, page 2 of page size 20 (totalPages is
1), yields the empty page. -/
theorem paginatedTransactions_out_of_range_witness :
    paginatedTransactions
      [{ id := 1, date := "2024-03-05", category := "Home",
         subcategory := "Rent", amount := -1000, from_ := "", to_ := "",
         note := none, tag := none, track := true }] 2 20 = [] := by
  apply paginatedTransactions_out_of_range _ 2 20 (by norm_num)
  have h : totalPages 1 20 = 1 := by
    rw [totalPages_formula 1 20 (by norm_num)]
    norm_num
  simp [h]

/-- Model of JavaScript `String.prototype.startsWith` restricted to its
character sequence (code-point by code-point comparison). -/
def charsBeginsWith : List Char → List Char → Bool
  | _, [] => true
  | [], _ :: _ => false
  | a :: as, b :: bs => a = b && charsBeginsWith as bs

/-- `s.startsWith(pre)` on strings. -/
def strBeginsWith (s pre : String) : Bool := charsBeginsWith s.data pre.data

/-- Model of JavaScript `s.substring(0, n)`: the first `n` characters. -/
def strTake (s : String) (n : ℕ) : String := ⟨s.data.take n⟩

/-- The target-month transaction subset of `useStats`: tracked transactions
whose date starts with the target month. -/
def monthTransactions (transactions : List Transaction) (targetMonth : String) :
    List Transaction :=
  transactions.filter (fun tx => strBeginsWith tx.date targetMonth && tx.track)

/-- The `forEach` accumulation of `useStats` producing
`(totalIncome, totalExpenses)`: positive amounts add to income, all other
amounts add their absolute value to expenses. -/
def monthTotals (txs : List Transaction) : ℚ × ℚ :=
  txs.foldl
    (fun acc tx =>
      if 0 < tx.amount then (acc.1 + tx.amount, acc.2)
      else (acc.1, acc.2 + |tx.amount|))
    (0, 0)

/-- `totalIncome` of the target month. -/
def totalIncome (txs : List Transaction) : ℚ := (monthTotals txs).1

/-- `totalExpenses` of the target month. -/
def totalExpenses (txs : List Transaction) : ℚ := (monthTotals txs).2

/-- Number of expense transactions of the month:
`monthTransactions.filter((tx) => tx.amount < 0).length`. -/
def expenseCount (txs : List Transaction) : ℕ :=
  (txs.filter (fun tx => tx.amount < 0)).length

/-- A JavaScript number as produced by division: either a finite value, NaN,
or a signed infinity. -/
inductive JSNum where
  | num (q : ℚ)
  | nan
  | posInf
  | negInf
deriving Repr, DecidableEq

/-- JavaScript division: `0 / 0` is NaN, `x / 0` for nonzero `x` is a signed
infinity, otherwise exact division. -/
def jsDiv (a b : ℚ) : JSNum :=
  if b = 0 then
    if a = 0 then JSNum.nan
    else if 0 < a then JSNum.posInf
    else JSNum.negInf
  else JSNum.num (a / b)

/-- The raw `averageTransaction` expression of `useStats`:
`transactionCount > 0 ? totalExpenses / expenseCount : 0`. -/
def averageTransactionRaw (monthTxs : List Transaction) : JSNum :=
  if 0 < monthTxs.length then
    jsDiv (totalExpenses monthTxs) ((expenseCount monthTxs : ℚ))
  else JSNum.num 0

/-- The returned `averageTransaction`, after the
`isNaN(averageTransaction) ? 0 : averageTransaction` guard. -/
def averageTransaction (monthTxs : List Transaction) : JSNum :=
  match averageTransactionRaw monthTxs with
  | JSNum.nan => JSNum.num 0
  | v => v

lemma monthTotals_foldl (txs : List Transaction) (acc : ℚ × ℚ) :
    txs.foldl
      (fun acc tx =>
        if 0 < tx.amount then (acc.1 + tx.amount, acc.2)
        else (acc.1, acc.2 + |tx.amount|)) acc =
      (acc.1 + ((txs.filter (fun tx => 0 < tx.amount)).map (·.amount)).sum,
       acc.2 + ((txs.filter (fun tx => tx.amount ≤ 0)).map
         (fun tx => |tx.amount|)).sum) := by
  induction txs generalizing acc with
  | nil => simp
  | cons tx rest ih =>
    by_cases h : 0 < tx.amount
    · have h' : ¬tx.amount ≤ 0 := not_le.mpr h
      simp [List.filter_cons, h, h', ih, add_assoc]
    · have h' : tx.amount ≤ 0 := not_lt.mp h
      simp [List.filter_cons, h, h', ih, add_assoc]

lemma totalExpenses_eq_sum (txs : List Transaction) :
    totalExpenses txs =
      ((txs.filter (fun tx => tx.amount ≤ 0)).map (fun tx => |tx.amount|)).sum := by
  rw [totalExpenses, monthTotals, monthTotals_foldl]
  simp

lemma totalExpenses_of_no_expense (txs : List Transaction)
    (h : expenseCount txs = 0) : totalExpenses txs = 0 := by
  rw [totalExpenses_eq_sum]
  apply List.sum_eq_zero
  intro x hx
  simp only [List.mem_map] at hx
  obtain ⟨tx, htx, rfl⟩ := hx
  rw [List.mem_filter] at htx
  obtain ⟨htxmem, hle⟩ := htx
  have hle' : tx.amount ≤ 0 := of_decide_eq_true hle
  have hnlt : ¬tx.amount < 0 := by
    intro hlt
    have hmem : tx ∈ txs.filter (fun tx => tx.amount < 0) :=
      List.mem_filter.mpr ⟨htxmem, by simpa using hlt⟩
    have := List.ne_nil_of_mem hmem
    rw [expenseCount] at h
    exact this (List.length_eq_zero.mp h)
  have h0 : tx.amount = 0 := le_antisymm hle' (not_lt.mp hnlt)
  simp [h0]

/-- C4: `averageTransaction` is always a finite number (never NaN or
Infinity); it is 0 when the month has no expense transactions, and
`totalExpenses / expenseCount` otherwise. -/
theorem averageTransaction_spec (transactions : List Transaction)
    (targetMonth : String) :
    (∃ q : ℚ,
      averageTransaction (monthTransactions transactions targetMonth) =
        JSNum.num q) ∧
    (expenseCount (monthTransactions transactions targetMonth) = 0 →
      averageTransaction (monthTransactions transactions targetMonth) =
        JSNum.num 0) ∧
    (0 < expenseCount (monthTransactions transactions targetMonth) →
      averageTransaction (monthTransactions transactions targetMonth) =
        JSNum.num (totalExpenses (monthTransactions transactions targetMonth) /
          (expenseCount (monthTransactions transactions targetMonth) : ℚ))) := by
  set m := monthTransactions transactions targetMonth with hm
  by_cases hlen : 0 < m.length
  · by_cases hc : expenseCount m = 0
    · have hE : totalExpenses m = 0 := totalExpenses_of_no_expense m hc
      have hres : averageTransaction m = JSNum.num 0 := by
        rw [averageTransaction, averageTransactionRaw, if_pos hlen, hE, hc]
        simp [jsDiv]
      exact ⟨⟨0, hres⟩, fun _ => hres, fun h => absurd hc (by omega)⟩
    · have hcpos : (0 : ℚ) < (expenseCount m : ℚ) := by
        have : 0 < expenseCount m := Nat.pos_of_ne_zero hc
        exact_mod_cast this
      have hres : averageTransaction m =
          JSNum.num (totalExpenses m / (expenseCount m : ℚ)) := by
        rw [averageTransaction, averageTransactionRaw, if_pos hlen, jsDiv,
          if_neg (ne_of_gt hcpos)]
      exact ⟨⟨_, hres⟩, fun h => absurd h hc, fun _ => hres⟩
  · have hc : expenseCount m = 0 := by
      have h1 : (m.filter (fun tx => tx.amount < 0)).length ≤ m.length :=
        List.length_filter_le _ _
      rw [expenseCount]
      omega
    have hres : averageTransaction m = JSNum.num 0 := by
      rw [averageTransaction, averageTransactionRaw, if_neg hlen]
    exact ⟨⟨0, hres⟩, fun _ => hres, fun h => absurd hc (by omega)⟩

/-- Witness for C4: a month with a single income transaction and no expense
transactions has average 0, not NaN. -/
theorem averageTransaction_spec_witness :
    averageTransaction (monthTransactions
      [{ id := 1, date := "2024-03-10", category := "Salary",
         subcategory := "Fixed", amount := 3000, from_ := "", to_ := "",
         note := none, tag := none, track := true }] "2024-03") =
      JSNum.num 0 := by
  apply (averageTransaction_spec
    [{ id := 1, date := "2024-03-10", category := "Salary",
       subcategory := "Fixed", amount := 3000, from_ := "", to_ := "",
       note := none, tag := none, track := true }] "2024-03").2.1
  decide

/-- Stable insertion, used to model JavaScript's stable `Array.prototype.sort`:
`le a b` means the comparator puts `a` no later than `b`. -/
def sortInsert {α : Type} (le : α → α → Bool) (x : α) : List α → List α
  | [] => [x]
  | y :: ys => if le x y then x :: y :: ys else y :: sortInsert le x ys

/-- Model of stable `Array.prototype.sort` with the order induced by a
comparator. -/
def jsSortBy {α : Type} (le : α → α → Bool) : List α → List α
  | [] => []
  | x :: xs => sortInsert le x (jsSortBy le xs)

lemma sortInsert_perm {α : Type} (le : α → α → Bool) (x : α) (l : List α) :
    (sortInsert le x l).Perm (x :: l) := by
  induction l with
  | nil => exact List.Perm.refl _
  | cons y ys ih =>
    by_cases h : le x y
    · simp [sortInsert, h]
    · simp only [sortInsert, h, Bool.false_eq_true, if_false]
      exact (List.Perm.cons y ih).trans (List.Perm.swap x y ys)

lemma jsSortBy_perm {α : Type} (le : α → α → Bool) (l : List α) :
    (jsSortBy le l).Perm l := by
  induction l with
  | nil => exact List.Perm.refl _
  | cons x xs ih =>
    exact (sortInsert_perm le x (jsSortBy le xs)).trans (List.Perm.cons x ih)

lemma jsSortBy_of_pairwise {α : Type} (le : α → α → Bool) (l : List α)
    (h : l.Pairwise (fun a b => le a b = true)) : jsSortBy le l = l := by
  induction l with
  | nil => rfl
  | cons x xs ih =>
    rw [List.pairwise_cons] at h
    rw [jsSortBy, ih h.2]
    cases xs with
    | nil => rfl
    | cons y ys =>
      rw [sortInsert, if_pos (h.1 y (List.mem_cons_self _ _))]

/-- First-occurrence lookup in an association list (JavaScript `Map.get`). -/
def mapGet {α : Type} : List (String × α) → String → Option α
  | [], _ => none
  | p :: rest, k => if p.1 = k then some p.2 else mapGet rest k

/-- JavaScript `Map.set`: replace the value at the first occurrence of the
key, or append a new entry at the end. -/
def mapSet {α : Type} : List (String × α) → String → α → List (String × α)
  | [], k, v => [(k, v)]
  | p :: rest, k, v => if p.1 = k then (k, v) :: rest else p :: mapSet rest k v

lemma mapSet_of_get_none {α : Type} (m : List (String × α)) (k : String)
    (v : α) (h : mapGet m k = none) : mapSet m k v = m ++ [(k, v)] := by
  induction m with
  | nil => rfl
  | cons p rest ih =>
    rw [mapGet] at h
    by_cases hk : p.1 = k
    · rw [if_pos hk] at h
      exact absurd h (by simp)
    · rw [if_neg hk] at h
      rw [mapSet, if_neg hk, ih h, List.cons_append]

lemma mapSet_map_sum {α : Type} (f : α → ℚ) (m : List (String × α))
    (k : String) (v cd : α) (h : mapGet m k = some cd) :
    ((mapSet m k v).map (fun p => f p.2)).sum =
      (m.map (fun p => f p.2)).sum - f cd + f v := by
  induction m with
  | nil => simp [mapGet] at h
  | cons p rest ih =>
    rw [mapGet] at h
    by_cases hk : p.1 = k
    · rw [if_pos hk] at h
      have hcd : cd = p.2 := by
        injection h with h
        exact h.symm
      rw [mapSet, if_pos hk, hcd]
      simp
      ring
    · rw [if_neg hk] at h
      rw [mapSet, if_neg hk]
      simp only [List.map_cons, List.sum_cons, ih h]
      ring

/-- Per-subcategory sub-aggregate of the category breakdown. -/
structure SubData where
  amount : ℚ
  count : ℕ
deriving Repr, DecidableEq

/-- Per-category aggregate of the category breakdown (`statsMap` values in
`useStats`). -/
structure CatData where
  subcategories : List (String × SubData)
  totalAmount : ℚ
  totalCount : ℕ
deriving Repr, DecidableEq

/-- One `forEach` step of the category aggregation of `useStats`: upsert the
category record, add `Math.abs(tx.amount)` to its total, bump its count, and
upsert the subcategory sub-aggregate. -/
def catStep (statsMap : List (String × CatData)) (tx : Transaction) :
    List (String × CatData) :=
  let amount := |tx.amount|
  let categoryData := (mapGet statsMap tx.category).getD
    { subcategories := [], totalAmount := 0, totalCount := 0 }
  let subData := (mapGet categoryData.subcategories tx.subcategory).getD
    { amount := 0, count := 0 }
  mapSet statsMap tx.category
    { subcategories := mapSet categoryData.subcategories tx.subcategory
        { amount := subData.amount + amount, count := subData.count + 1 },
      totalAmount := categoryData.totalAmount + amount,
      totalCount := categoryData.totalCount + 1 }

/-- The category aggregation map of `useStats`, built from the month's
expense transactions only (`tx.amount < 0`). -/
def catMapOf (monthTxs : List Transaction) : List (String × CatData) :=
  (monthTxs.filter (fun tx => tx.amount < 0)).foldl catStep []

/-- `totalCategoryExpenses` of `useStats`: the reduce over all aggregated
category totals. -/
def totalCategoryExpenses (statsMap : List (String × CatData)) : ℚ :=
  (statsMap.map (fun p => p.2.totalAmount)).sum

/-- A subcategory entry of the reported `CategoryStats`. -/
structure SubStat where
  name : String
  amount : ℚ
  count : ℕ
deriving Repr, DecidableEq

/-- A `CategoryStats` entry as returned by `useStats`. -/
structure CategoryStats where
  category : String
  subcategories : List SubStat
  totalAmount : ℚ
  totalCount : ℕ
  percentage : ℚ
deriving Repr, DecidableEq

/-- `categoryStats` of `useStats`: map aggregates to entries with
`percentage = totalAmount / totalCategoryExpenses * 100` (0 when the
denominator is 0) and sort descending by `totalAmount`. -/
def categoryStats (monthTxs : List Transaction) : List CategoryStats :=
  jsSortBy (fun a b => decide (b.totalAmount ≤ a.totalAmount))
    ((catMapOf monthTxs).map (fun p =>
      { category := p.1,
        subcategories := p.2.subcategories.map (fun q =>
          { name := q.1, amount := q.2.amount, count := q.2.count }),
        totalAmount := p.2.totalAmount,
        totalCount := p.2.totalCount,
        percentage :=
          if 0 < totalCategoryExpenses (catMapOf monthTxs) then
            p.2.totalAmount / totalCategoryExpenses (catMapOf monthTxs) * 100
          else 0 }))

lemma catStep_totalSum (m : List (String × CatData)) (tx : Transaction) :
    totalCategoryExpenses (catStep m tx) =
      totalCategoryExpenses m + |tx.amount| := by
  rw [totalCategoryExpenses, totalCategoryExpenses, catStep]
  cases h : mapGet m tx.category with
  | none =>
    rw [mapSet_of_get_none _ _ _ h, List.map_append, List.sum_append]
    simp [h]
  | some cd =>
    rw [mapSet_map_sum (fun c => c.totalAmount) m tx.category _ cd h]
    simp [h]
    ring

lemma catMap_totalSum (txs : List Transaction) :
    ∀ m : List (String × CatData),
      totalCategoryExpenses (txs.foldl catStep m) =
        totalCategoryExpenses m + (txs.map (fun tx => |tx.amount|)).sum := by
  induction txs with
  | nil => intro m; simp
  | cons tx rest ih =>
    intro m
    rw [List.foldl_cons, ih, catStep_totalSum]
    simp [add_assoc]

lemma sum_map_div_mul (l : List ℚ) (T : ℚ) :
    (l.map (fun t => t / T * 100)).sum = l.sum / T * 100 := by
  induction l with
  | nil => simp
  | cons x xs ih => simp [ih, add_div, add_mul]

lemma totalCategoryExpenses_catMapOf (monthTxs : List Transaction) :
    totalCategoryExpenses (catMapOf monthTxs) =
      ((monthTxs.filter (fun tx => tx.amount < 0)).map
        (fun tx => |tx.amount|)).sum := by
  rw [catMapOf, catMap_totalSum]
  simp [totalCategoryExpenses]

/-- C3: the category-breakdown percentages sum to exactly 100 whenever the
target month contains at least one tracked expense transaction, and the
breakdown is empty with percentage sum 0 when it contains none. -/
theorem categoryStats_percentage_sum (transactions : List Transaction)
    (targetMonth : String) :
    ((∃ tx ∈ monthTransactions transactions targetMonth, tx.amount < 0) →
      ((categoryStats (monthTransactions transactions targetMonth)).map
        (fun c => c.percentage)).sum = 100) ∧
    ((∀ tx ∈ monthTransactions transactions targetMonth, ¬tx.amount < 0) →
      categoryStats (monthTransactions transactions targetMonth) = [] ∧
      ((categoryStats (monthTransactions transactions targetMonth)).map
        (fun c => c.percentage)).sum = 0) := by
  set m := monthTransactions transactions targetMonth with hm
  constructor
  · rintro ⟨tx, htx, hlt⟩
    have habs : totalCategoryExpenses (catMapOf m) =
        ((m.filter (fun tx => tx.amount < 0)).map (fun tx => |tx.amount|)).sum :=
      totalCategoryExpenses_catMapOf m
    have hpos : 0 < totalCategoryExpenses (catMapOf m) := by
      rw [habs]
      apply List.sum_pos
      · intro x hx
        simp only [List.mem_map, List.mem_filter] at hx
        obtain ⟨t, ⟨_, hneg⟩, rfl⟩ := hx
        have hneg' : t.amount < 0 := by simpa using hneg
        exact abs_pos.mpr (ne_of_lt hneg')
      · have hmem : tx ∈ m.filter (fun tx => tx.amount < 0) :=
          List.mem_filter.mpr ⟨htx, by simpa using hlt⟩
        exact List.ne_nil_of_mem (List.mem_map_of_mem _ hmem)
    rw [categoryStats]
    rw [List.Perm.sum_eq (List.Perm.map _ (jsSortBy_perm _ _))]
    rw [List.map_map]
    have hcomp :
        ((fun c : CategoryStats => c.percentage) ∘ (fun p : String × CatData =>
          ({ category := p.1,
             subcategories := p.2.subcategories.map (fun q =>
               { name := q.1, amount := q.2.amount, count := q.2.count }),
             totalAmount := p.2.totalAmount,
             totalCount := p.2.totalCount,
             percentage :=
               if 0 < totalCategoryExpenses (catMapOf m) then
                 p.2.totalAmount / totalCategoryExpenses (catMapOf m) * 100
               else 0 } : CategoryStats))) =
          fun p : String × CatData =>
            p.2.totalAmount / totalCategoryExpenses (catMapOf m) * 100 := by
      funext p
      simp [Function.comp, if_pos hpos]
    rw [hcomp]
    have hsplit : (catMapOf m).map (fun p : String × CatData =>
        p.2.totalAmount / totalCategoryExpenses (catMapOf m) * 100) =
        ((catMapOf m).map (fun p => p.2.totalAmount)).map
          (fun t => t / totalCategoryExpenses (catMapOf m) * 100) := by
      rw [List.map_map]
      rfl
    rw [hsplit, sum_map_div_mul]
    rw [show ((catMapOf m).map (fun p => p.2.totalAmount)).sum =
      totalCategoryExpenses (catMapOf m) from rfl]
    rw [div_self (ne_of_gt hpos)]
    norm_num
  · intro hall
    have hfil : m.filter (fun tx => tx.amount < 0) = [] :=
      List.filter_eq_nil_iff.mpr (fun tx h => by simpa using hall tx h)
    have hmap : catMapOf m = [] := by
      rw [catMapOf, hfil]
      rfl
    rw [categoryStats, hmap]
    exact ⟨rfl, rfl⟩

/-- A concrete tracked expense transaction used by witnesses. -/
def txHome : Transaction :=
  { id := 1, date := "2024-03-05", category := "Home", subcategory := "Rent",
    amount := -1000, from_ := "", to_ := "", note := none, tag := none,
    track := true }

/-- A concrete tracked income transaction used by witnesses. -/
def txSalary : Transaction :=
  { id := 2, date := "2024-03-10", category := "Salary",
    subcategory := "Fixed", amount := 3000, from_ := "", to_ := "",
    note := none, tag := none, track := true }

/-- Witness for C3: the month 2024-03 with a tracked -1000 expense and a
3000 income yields a category breakdown whose percentages sum to 100. -/
theorem categoryStats_percentage_sum_witness :
    ((categoryStats (monthTransactions [txHome, txSalary] "2024-03")).map
      (fun c => c.percentage)).sum = 100 := by
  apply (categoryStats_percentage_sum [txHome, txSalary] "2024-03").1
  exact ⟨txHome, by decide, by decide⟩

/-- Code-point lexicographic comparison on character lists, modelling both
IndexedDB string key ordering and `localeCompare`-based ascending sorts. -/
def lexLe : List Char → List Char → Bool
  | [], _ => true
  | _ :: _, [] => false
  | a :: as, b :: bs => if a = b then lexLe as bs else decide (a < b)

/-- `a <= b` in string key order. -/
def strLe (a b : String) : Bool := lexLe a.data b.data

/-- A monthly bucket value: `{ income, expenses }`. -/
structure MonthData where
  income : ℚ
  expenses : ℚ
deriving Repr, DecidableEq

/-- `String(n).padStart(2, '0')` for month numbers. -/
def pad2 (n : ℕ) : String := if n < 10 then "0" ++ toString n else toString n

/-- Month key of `new Date(y, mIdx, 1)` where `t = y * 12 + mIdx`, modelling
the Date constructor's month normalization and the
"`${getFullYear()}-${pad(getMonth() + 1)}`" formatting. -/
def monthKeyOfTotal (t : ℤ) : String :=
  toString (t.fdiv 12) ++ "-" ++ pad2 ((t.emod 12).toNat + 1)

/-- The trailing-12-month window of `useStats`, newest month first, relative
to a pinned "now" given as year and 0-based month index. -/
def last12Months (year monthIdx : ℤ) : List String :=
  (List.range 12).map (fun i => monthKeyOfTotal (year * 12 + monthIdx - i))

/-- Initialization of the monthly map: `statsMap.set(month, {0, 0})` for
each window key in order. -/
def initMonths (keys : List String) : List (String × MonthData) :=
  keys.foldl (fun m k => mapSet m k { income := 0, expenses := 0 }) []

/-- One aggregation step of the monthly rollup: bucket the transaction by
the first 7 characters of its date; if the bucket exists, add the positive
amount to `income` or `Math.abs(amount)` to `expenses`; otherwise drop it. -/
def monthStep (m : List (String × MonthData)) (tx : Transaction) :
    List (String × MonthData) :=
  match mapGet m (strTake tx.date 7) with
  | none => m
  | some cur =>
    if 0 < tx.amount then
      mapSet m (strTake tx.date 7) { cur with income := cur.income + tx.amount }
    else
      mapSet m (strTake tx.date 7)
        { cur with expenses := cur.expenses + |tx.amount| }

/-- The aggregated monthly map of `useStats`: tracked transactions folded
over the initialized window. -/
def monthlyStatsMap (keys : List String) (transactions : List Transaction) :
    List (String × MonthData) :=
  (transactions.filter (fun tx => tx.track)).foldl monthStep (initMonths keys)

/-- A `MonthlyStats` entry as returned by `useStats`. -/
structure MonthlyStats where
  month : String
  income : ℚ
  expenses : ℚ
  savings : ℚ
  savingsRate : ℚ
deriving Repr, DecidableEq

/-- `monthlyStats` of `useStats`: map buckets to entries with savings and
savings rate, sorted ascending by month key. -/
def monthlyStats (keys : List String) (transactions : List Transaction) :
    List MonthlyStats :=
  jsSortBy (fun a b => strLe a.month b.month)
    ((monthlyStatsMap keys transactions).map (fun p : String × MonthData =>
      ({ month := p.1, income := p.2.income, expenses := p.2.expenses,
         savings := p.2.income - p.2.expenses,
         savingsRate :=
           if 0 < p.2.income then
             (p.2.income - p.2.expenses) / p.2.income * 100
           else 0 } : MonthlyStats)))

/-- Total income over all buckets of a monthly map. -/
def mapIncomeSum (m : List (String × MonthData)) : ℚ :=
  (m.map (fun p => p.2.income)).sum

/-- Total expenses over all buckets of a monthly map. -/
def mapExpensesSum (m : List (String × MonthData)) : ℚ :=
  (m.map (fun p => p.2.expenses)).sum

lemma mapGet_mapSet_self {α : Type} (m : List (String × α)) (k : String)
    (v : α) : mapGet (mapSet m k v) k = some v := by
  induction m with
  | nil => simp [mapSet, mapGet]
  | cons p rest ih =>
    by_cases hk : p.1 = k
    · simp [mapSet, hk, mapGet]
    · simp [mapSet, hk, mapGet, ih]

lemma mapGet_mapSet_ne {α : Type} (m : List (String × α)) (k k' : String)
    (v : α) (h : k' ≠ k) : mapGet (mapSet m k v) k' = mapGet m k' := by
  induction m with
  | nil =>
    have h' : ¬k = k' := fun hh => h hh.symm
    simp [mapSet, mapGet, h']
  | cons p rest ih =>
    by_cases hk : p.1 = k
    · rw [mapSet, if_pos hk, mapGet, mapGet, hk, if_neg (fun hh => h hh.symm),
        if_neg (fun hh => h hh.symm)]
    · rw [mapSet, if_neg hk, mapGet, mapGet]
      by_cases hk' : p.1 = k'
      · rw [if_pos hk', if_pos hk']
      · rw [if_neg hk', if_neg hk', ih]

lemma monthStep_get_isSome (m : List (String × MonthData)) (tx : Transaction)
    (k : String) : (mapGet (monthStep m tx) k).isSome = (mapGet m k).isSome := by
  cases h : mapGet m (strTake tx.date 7) with
  | none => simp [monthStep, h]
  | some cur =>
    by_cases hk : k = strTake tx.date 7
    · subst hk
      by_cases hp : 0 < tx.amount
      · simp only [monthStep, h, if_pos hp]
        rw [mapGet_mapSet_self]
        rfl
      · simp only [monthStep, h, if_neg hp]
        rw [mapGet_mapSet_self]
        rfl
    · by_cases hp : 0 < tx.amount
      · simp only [monthStep, h, if_pos hp]
        rw [mapGet_mapSet_ne _ _ _ _ hk]
      · simp only [monthStep, h, if_neg hp]
        rw [mapGet_mapSet_ne _ _ _ _ hk]

lemma monthStep_incomeSum (m : List (String × MonthData)) (tx : Transaction) :
    mapIncomeSum (monthStep m tx) = mapIncomeSum m +
      (if (mapGet m (strTake tx.date 7)).isSome ∧ 0 < tx.amount then
        tx.amount else 0) := by
  cases h : mapGet m (strTake tx.date 7) with
  | none => simp [monthStep, h]
  | some cur =>
    by_cases hp : 0 < tx.amount
    · simp only [monthStep, h, if_pos hp]
      rw [mapIncomeSum, mapIncomeSum,
        mapSet_map_sum (fun v => v.income) m _ _ cur h]
      simp [hp]
      ring
    · simp only [monthStep, h, if_neg hp]
      rw [mapIncomeSum, mapIncomeSum,
        mapSet_map_sum (fun v => v.income) m _ _ cur h]
      simp [hp]

lemma monthStep_expensesSum (m : List (String × MonthData)) (tx : Transaction) :
    mapExpensesSum (monthStep m tx) = mapExpensesSum m +
      (if (mapGet m (strTake tx.date 7)).isSome ∧ tx.amount ≤ 0 then
        |tx.amount| else 0) := by
  cases h : mapGet m (strTake tx.date 7) with
  | none => simp [monthStep, h]
  | some cur =>
    by_cases hp : 0 < tx.amount
    · simp only [monthStep, h, if_pos hp]
      rw [mapExpensesSum, mapExpensesSum,
        mapSet_map_sum (fun v => v.expenses) m _ _ cur h]
      simp [not_le.mpr hp]
    · simp only [monthStep, h, if_neg hp]
      rw [mapExpensesSum, mapExpensesSum,
        mapSet_map_sum (fun v => v.expenses) m _ _ cur h]
      simp [not_lt.mp hp]
      ring

lemma foldl_monthStep_incomeSum (txs : List Transaction) :
    ∀ m, mapIncomeSum (txs.foldl monthStep m) = mapIncomeSum m +
      ((txs.filter (fun tx => (mapGet m (strTake tx.date 7)).isSome &&
        decide (0 < tx.amount))).map (fun tx => tx.amount)).sum := by
  induction txs with
  | nil => intro m; simp
  | cons tx rest ih =>
    intro m
    rw [List.foldl_cons, ih (monthStep m tx)]
    have hcongr : rest.filter (fun tx' =>
        (mapGet (monthStep m tx) (strTake tx'.date 7)).isSome &&
          decide (0 < tx'.amount)) =
        rest.filter (fun tx' => (mapGet m (strTake tx'.date 7)).isSome &&
          decide (0 < tx'.amount)) :=
      List.filter_congr (fun tx' _ => by rw [monthStep_get_isSome])
    rw [hcongr, monthStep_incomeSum, List.filter_cons]
    by_cases h1 : (mapGet m (strTake tx.date 7)).isSome
    · by_cases h2 : 0 < tx.amount
      · simp [h1, h2]
        ring
      · simp [h1, h2]
    · simp [h1]

lemma foldl_monthStep_expensesSum (txs : List Transaction) :
    ∀ m, mapExpensesSum (txs.foldl monthStep m) = mapExpensesSum m +
      ((txs.filter (fun tx => (mapGet m (strTake tx.date 7)).isSome &&
        decide (tx.amount ≤ 0))).map (fun tx => |tx.amount|)).sum := by
  induction txs with
  | nil => intro m; simp
  | cons tx rest ih =>
    intro m
    rw [List.foldl_cons, ih (monthStep m tx)]
    have hcongr : rest.filter (fun tx' =>
        (mapGet (monthStep m tx) (strTake tx'.date 7)).isSome &&
          decide (tx'.amount ≤ 0)) =
        rest.filter (fun tx' => (mapGet m (strTake tx'.date 7)).isSome &&
          decide (tx'.amount ≤ 0)) :=
      List.filter_congr (fun tx' _ => by rw [monthStep_get_isSome])
    rw [hcongr, monthStep_expensesSum, List.filter_cons]
    by_cases h1 : (mapGet m (strTake tx.date 7)).isSome
    · by_cases h2 : tx.amount ≤ 0
      · simp [h1, h2]
        ring
      · simp [h1, h2]
    · simp [h1]

lemma foldl_mapSet_get_isSome (keys : List String) (v0 : MonthData) :
    ∀ (m0 : List (String × MonthData)) (k : String),
      (mapGet (keys.foldl (fun m k' => mapSet m k' v0) m0) k).isSome =
        (keys.contains k || (mapGet m0 k).isSome) := by
  induction keys with
  | nil => intro m0 k; simp
  | cons k' rest ih =>
    intro m0 k
    rw [List.foldl_cons, ih]
    by_cases hk : k = k'
    · subst hk
      simp [mapGet_mapSet_self]
    · simp [mapGet_mapSet_ne _ _ _ _ hk, hk]

lemma initMonths_get_isSome (keys : List String) (k : String) :
    (mapGet (initMonths keys) k).isSome = keys.contains k := by
  rw [initMonths, foldl_mapSet_get_isSome]
  simp [mapGet]

lemma mem_mapSet {α : Type} (p : String × α) (m : List (String × α))
    (k : String) (v : α) (h : p ∈ mapSet m k v) : p = (k, v) ∨ p ∈ m := by
  induction m with
  | nil => simpa [mapSet] using h
  | cons q rest ih =>
    by_cases hk : q.1 = k
    · rw [mapSet, if_pos hk] at h
      rcases List.mem_cons.mp h with h | h
      · exact Or.inl h
      · exact Or.inr (List.mem_cons_of_mem _ h)
    · rw [mapSet, if_neg hk] at h
      rcases List.mem_cons.mp h with h | h
      · exact Or.inr (h ▸ List.mem_cons_self _ _)
      · rcases ih h with h | h
        · exact Or.inl h
        · exact Or.inr (List.mem_cons_of_mem _ h)

lemma initMonths_values (keys : List String) :
    ∀ p ∈ initMonths keys, p.2 = ({ income := 0, expenses := 0 } : MonthData) := by
  rw [initMonths]
  suffices h : ∀ (m0 : List (String × MonthData)),
      (∀ q ∈ m0, q.2 = ({ income := 0, expenses := 0 } : MonthData)) →
      ∀ p ∈ keys.foldl
        (fun m k => mapSet m k { income := 0, expenses := 0 }) m0,
        p.2 = ({ income := 0, expenses := 0 } : MonthData) by
    exact h [] (by simp)
  induction keys with
  | nil => intro m0 hm0; simpa using hm0
  | cons k rest ih =>
    intro m0 hm0 p hp
    rw [List.foldl_cons] at hp
    refine ih (mapSet m0 k { income := 0, expenses := 0 }) ?_ p hp
    intro q hq
    rcases mem_mapSet q m0 k _ hq with h | h
    · rw [h]
    · exact hm0 q h

lemma initMonths_incomeSum (keys : List String) :
    mapIncomeSum (initMonths keys) = 0 := by
  apply List.sum_eq_zero
  intro x hx
  simp only [List.mem_map] at hx
  obtain ⟨p, hp, rfl⟩ := hx
  rw [initMonths_values keys p hp]

lemma initMonths_expensesSum (keys : List String) :
    mapExpensesSum (initMonths keys) = 0 := by
  apply List.sum_eq_zero
  intro x hx
  simp only [List.mem_map] at hx
  obtain ⟨p, hp, rfl⟩ := hx
  rw [initMonths_values keys p hp]

lemma monthlyStats_incomeSum (keys : List String)
    (transactions : List Transaction) :
    ((monthlyStats keys transactions).map (fun s => s.income)).sum =
      mapIncomeSum (monthlyStatsMap keys transactions) := by
  rw [monthlyStats,
    List.Perm.sum_eq (List.Perm.map _ (jsSortBy_perm _ _)), List.map_map]
  rfl

lemma monthlyStats_expensesSum (keys : List String)
    (transactions : List Transaction) :
    ((monthlyStats keys transactions).map (fun s => s.expenses)).sum =
      mapExpensesSum (monthlyStatsMap keys transactions) := by
  rw [monthlyStats,
    List.Perm.sum_eq (List.Perm.map _ (jsSortBy_perm _ _)), List.map_map]
  rfl

/-- C5: over the 12 buckets of the monthly rollup, bucket incomes sum to the
positive amounts, and bucket expenses to the absolute values of non-positive
amounts, of exactly the tracked transactions whose month prefix lies in the
window; transactions outside the window contribute to neither. -/
theorem monthlyStats_window_sums (year monthIdx : ℤ)
    (transactions : List Transaction) :
    ((monthlyStats (last12Months year monthIdx) transactions).map
      (fun s => s.income)).sum =
      ((transactions.filter (fun tx => tx.track &&
        (last12Months year monthIdx).contains (strTake tx.date 7) &&
        decide (0 < tx.amount))).map (fun tx => tx.amount)).sum ∧
    ((monthlyStats (last12Months year monthIdx) transactions).map
      (fun s => s.expenses)).sum =
      ((transactions.filter (fun tx => tx.track &&
        (last12Months year monthIdx).contains (strTake tx.date 7) &&
        decide (tx.amount ≤ 0))).map (fun tx => |tx.amount|)).sum := by
  set keys := last12Months year monthIdx with hkeys
  constructor
  · rw [monthlyStats_incomeSum, monthlyStatsMap, foldl_monthStep_incomeSum,
      initMonths_incomeSum, zero_add]
    have h1 : (transactions.filter (fun tx => tx.track)).filter
        (fun tx => (mapGet (initMonths keys) (strTake tx.date 7)).isSome &&
          decide (0 < tx.amount)) =
        (transactions.filter (fun tx => tx.track)).filter
        (fun tx => keys.contains (strTake tx.date 7) &&
          decide (0 < tx.amount)) :=
      List.filter_congr (fun tx _ => by rw [initMonths_get_isSome])
    rw [h1, List.filter_filter]
    have h2 : transactions.filter
        (fun tx => (keys.contains (strTake tx.date 7) &&
          decide (0 < tx.amount)) && tx.track) =
        transactions.filter (fun tx => tx.track &&
          keys.contains (strTake tx.date 7) && decide (0 < tx.amount)) :=
      List.filter_congr (fun tx _ => by
        rw [Bool.and_comm, ← Bool.and_assoc])
    rw [h2]
  · rw [monthlyStats_expensesSum, monthlyStatsMap, foldl_monthStep_expensesSum,
      initMonths_expensesSum, zero_add]
    have h1 : (transactions.filter (fun tx => tx.track)).filter
        (fun tx => (mapGet (initMonths keys) (strTake tx.date 7)).isSome &&
          decide (tx.amount ≤ 0)) =
        (transactions.filter (fun tx => tx.track)).filter
        (fun tx => keys.contains (strTake tx.date 7) &&
          decide (tx.amount ≤ 0)) :=
      List.filter_congr (fun tx _ => by rw [initMonths_get_isSome])
    rw [h1, List.filter_filter]
    have h2 : transactions.filter
        (fun tx => (keys.contains (strTake tx.date 7) &&
          decide (tx.amount ≤ 0)) && tx.track) =
        transactions.filter (fun tx => tx.track &&
          keys.contains (strTake tx.date 7) && decide (tx.amount ≤ 0)) :=
      List.filter_congr (fun tx _ => by
        rw [Bool.and_comm, ← Bool.and_assoc])
    rw [h2]

/-- An entry of `getMonthlyTotals`: `{ month, income, expenses }`. -/
structure MonthEntry where
  month : String
  income : ℚ
  expenses : ℚ
deriving Repr, DecidableEq

/-- The 12 month keys `year-01` .. `year-12` initialized by
`getMonthlyTotals`. -/
def monthKeysOf (year : ℕ) : List String :=
  (List.range 12).map (fun i => toString year ++ "-" ++ pad2 (i + 1))

/-- `transactionService.getMonthlyTotals(year)`: range-query the store for
tracked transactions dated between `year-01-01` and `year-12-31` (inclusive,
in date index order), bucket them by month prefix over the initialized
12-month map, and return the entries sorted ascending by month key. -/
def getMonthlyTotals (year : ℕ) (store : List Transaction) : List MonthEntry :=
  jsSortBy (fun a b => strLe a.month b.month)
    (((jsSortBy (fun a b => strLe a.date b.date)
        (store.filter (fun t => strLe (toString year ++ "-01-01") t.date &&
          strLe t.date (toString year ++ "-12-31") && t.track))).foldl
      monthStep (initMonths (monthKeysOf year))).map
      (fun p : String × MonthData =>
        ({ month := p.1, income := p.2.income,
           expenses := p.2.expenses } : MonthEntry)))

lemma lexLe_append_left (s a b : List Char) :
    lexLe (s ++ a) (s ++ b) = lexLe a b := by
  induction s with
  | nil => rfl
  | cons c cs ih => simp [lexLe, ih]

lemma strLe_append_left (s a b : String) :
    strLe (s ++ a) (s ++ b) = strLe a b := by
  rw [strLe, strLe, String.data_append, String.data_append, lexLe_append_left]

lemma str_append_cancel_left (a b c : String) (h : a ++ b = a ++ c) : b = c := by
  have hd := congrArg String.data h
  rw [String.data_append, String.data_append] at hd
  cases b with
  | mk bdata =>
    cases c with
    | mk cdata =>
      have : bdata = cdata := List.append_cancel_left hd
      rw [this]

lemma pad2_inj12 : ∀ i ∈ Finset.range 12, ∀ j ∈ Finset.range 12,
    pad2 (i + 1) = pad2 (j + 1) → i = j := by decide

lemma pad2_mono12 : ∀ i ∈ Finset.range 12, ∀ j ∈ Finset.range 12,
    i ≤ j → strLe (pad2 (i + 1)) (pad2 (j + 1)) = true := by decide

lemma monthKeysOf_nodup (year : ℕ) : (monthKeysOf year).Nodup := by
  rw [monthKeysOf]
  refine (List.nodup_range 12).map_on ?_
  intro i hi j hj hij
  have hi' : i ∈ Finset.range 12 := Finset.mem_range.mpr (List.mem_range.mp hi)
  have hj' : j ∈ Finset.range 12 := Finset.mem_range.mpr (List.mem_range.mp hj)
  exact pad2_inj12 i hi' j hj'
    (str_append_cancel_left (toString year ++ "-") _ _ hij)

lemma monthKeysOf_pairwise (year : ℕ) :
    (monthKeysOf year).Pairwise (fun a b => strLe a b = true) := by
  rw [monthKeysOf, List.pairwise_map]
  refine (List.pairwise_lt_range 12).imp_of_mem ?_
  intro i j hi hj hij
  have hi' : i ∈ Finset.range 12 := Finset.mem_range.mpr (List.mem_range.mp hi)
  have hj' : j ∈ Finset.range 12 := Finset.mem_range.mpr (List.mem_range.mp hj)
  have := pad2_mono12 i hi' j hj' (le_of_lt hij)
  rw [String.append_assoc, String.append_assoc, strLe_append_left,
    strLe_append_left]
  exact this

lemma mapGet_append_none {α : Type} (m0 l : List (String × α)) (k : String)
    (h : mapGet m0 k = none) : mapGet (m0 ++ l) k = mapGet l k := by
  induction m0 with
  | nil => rfl
  | cons p rest ih =>
    rw [mapGet] at h
    by_cases hk : p.1 = k
    · rw [if_pos hk] at h
      exact absurd h (by simp)
    · rw [if_neg hk] at h
      rw [List.cons_append, mapGet, if_neg hk, ih h]

lemma foldl_mapSet_fst (keys : List String) (v0 : MonthData) :
    ∀ m0, keys.Nodup → (∀ k ∈ keys, mapGet m0 k = none) →
      ((keys.foldl (fun m k => mapSet m k v0) m0).map Prod.fst) =
        m0.map Prod.fst ++ keys := by
  induction keys with
  | nil => intro m0 _ _; simp
  | cons k rest ih =>
    intro m0 hnd hnone
    rw [List.nodup_cons] at hnd
    rw [List.foldl_cons,
      mapSet_of_get_none m0 k v0 (hnone k (List.mem_cons_self _ _)),
      ih (m0 ++ [(k, v0)]) hnd.2 ?_]
    · rw [List.map_append]
      simp
    · intro k' hk'
      rw [mapGet_append_none m0 _ _ (hnone k' (List.mem_cons_of_mem _ hk'))]
      rw [mapGet]
      rw [if_neg]
      · rfl
      · intro hh
        simp only at hh
        subst hh
        exact hnd.1 hk'

lemma initMonths_fst (keys : List String) (h : keys.Nodup) :
    (initMonths keys).map Prod.fst = keys := by
  rw [initMonths, foldl_mapSet_fst keys _ [] h (by intro k _; rfl)]
  rfl

lemma mapSet_fst_of_get_some {α : Type} (m : List (String × α)) (k : String)
    (v cd : α) (h : mapGet m k = some cd) :
    (mapSet m k v).map Prod.fst = m.map Prod.fst := by
  induction m with
  | nil => simp [mapGet] at h
  | cons p rest ih =>
    rw [mapGet] at h
    by_cases hk : p.1 = k
    · rw [mapSet, if_pos hk]
      simp [hk]
    · rw [if_neg hk] at h
      rw [mapSet, if_neg hk]
      simp [ih h]

lemma monthStep_fst (m : List (String × MonthData)) (tx : Transaction) :
    (monthStep m tx).map Prod.fst = m.map Prod.fst := by
  cases h : mapGet m (strTake tx.date 7) with
  | none => simp [monthStep, h]
  | some cur =>
    by_cases hp : 0 < tx.amount
    · simp only [monthStep, h, if_pos hp]
      exact mapSet_fst_of_get_some m _ _ cur h
    · simp only [monthStep, h, if_neg hp]
      exact mapSet_fst_of_get_some m _ _ cur h

lemma foldl_monthStep_fst (txs : List Transaction) :
    ∀ m, ((txs.foldl monthStep m).map Prod.fst) = m.map Prod.fst := by
  induction txs with
  | nil => intro m; rfl
  | cons tx rest ih =>
    intro m
    rw [List.foldl_cons, ih, monthStep_fst]

lemma mapGet_mem {α : Type} (m : List (String × α)) (k : String) (v : α)
    (h : mapGet m k = some v) : (k, v) ∈ m := by
  induction m with
  | nil => simp [mapGet] at h
  | cons p rest ih =>
    obtain ⟨pk, pv⟩ := p
    rw [mapGet] at h
    by_cases hk : pk = k
    · simp only at hk
      rw [if_pos hk] at h
      injection h with h
      simp only at h
      rw [← hk, ← h]
      exact List.mem_cons_self _ _
    · simp only at hk
      rw [if_neg hk] at h
      exact List.mem_cons_of_mem _ (ih h)

lemma mapGet_of_mem_nodup {α : Type} (m : List (String × α))
    (p : String × α) (hnd : (m.map Prod.fst).Nodup) (hp : p ∈ m) :
    mapGet m p.1 = some p.2 := by
  induction m with
  | nil => simp at hp
  | cons q rest ih =>
    rw [List.map_cons, List.nodup_cons] at hnd
    rcases List.mem_cons.mp hp with h | h
    · rw [h, mapGet, if_pos rfl]
    · rw [mapGet, if_neg, ih hnd.2 h]
      intro hh
      exact hnd.1 (hh ▸ List.mem_map_of_mem Prod.fst h)

lemma initMonths_get_mem (keys : List String) (k : String)
    (h : k ∈ keys) :
    mapGet (initMonths keys) k = some ({ income := 0, expenses := 0 } : MonthData) := by
  have hsome : (mapGet (initMonths keys) k).isSome = true := by
    rw [initMonths_get_isSome]
    simp [h]
  cases hv : mapGet (initMonths keys) k with
  | none => rw [hv] at hsome; simp at hsome
  | some v =>
    have := initMonths_values keys (k, v) (mapGet_mem _ _ _ hv)
    simp only at this
    rw [this]

lemma foldl_monthStep_get (txs : List Transaction) :
    ∀ (m : List (String × MonthData)) (k : String) (cur : MonthData),
      mapGet m k = some cur →
      mapGet (txs.foldl monthStep m) k = some
        { income := cur.income + ((txs.filter (fun tx =>
            decide (strTake tx.date 7 = k) && decide (0 < tx.amount))).map
            (fun tx => tx.amount)).sum,
          expenses := cur.expenses + ((txs.filter (fun tx =>
            decide (strTake tx.date 7 = k) && decide (tx.amount ≤ 0))).map
            (fun tx => |tx.amount|)).sum } := by
  induction txs with
  | nil =>
    intro m k cur h
    simpa using h
  | cons tx rest ih =>
    intro m k cur h
    rw [List.foldl_cons]
    by_cases hpre : strTake tx.date 7 = k
    · by_cases hp : 0 < tx.amount
      · have hstep : monthStep m tx =
            mapSet m k { cur with income := cur.income + tx.amount } := by
          simp only [monthStep, hpre, h]
          rw [if_pos hp]
        rw [hstep, ih _ k _ (mapGet_mapSet_self m k _)]
        have hng : ¬tx.amount ≤ 0 := not_le.mpr hp
        simp [List.filter_cons, hpre, hp, hng, add_assoc]
      · have hle : tx.amount ≤ 0 := not_lt.mp hp
        have hstep : monthStep m tx =
            mapSet m k { cur with expenses := cur.expenses + |tx.amount| } := by
          simp only [monthStep, hpre, h]
          rw [if_neg hp]
        rw [hstep, ih _ k _ (mapGet_mapSet_self m k _)]
        simp [List.filter_cons, hpre, hp, hle, add_assoc]
    · have hget : mapGet (monthStep m tx) k = some cur := by
        cases h2 : mapGet m (strTake tx.date 7) with
        | none =>
          simp only [monthStep, h2]
          exact h
        | some c2 =>
          have hne : k ≠ strTake tx.date 7 := fun hh => hpre hh.symm
          by_cases hp : 0 < tx.amount
          · simp only [monthStep, h2, if_pos hp]
            rw [mapGet_mapSet_ne _ _ _ _ hne]
            exact h
          · simp only [monthStep, h2, if_neg hp]
            rw [mapGet_mapSet_ne _ _ _ _ hne]
            exact h
      rw [ih _ k cur hget]
      simp [List.filter_cons, hpre]

lemma monthBody_bounds : ∀ m ∈ Finset.range 12, ∀ dd ∈ Finset.Icc 1 31,
    strLe "01-01" (pad2 (m + 1) ++ "-" ++ pad2 dd) = true ∧
    strLe (pad2 (m + 1) ++ "-" ++ pad2 dd) "12-31" = true := by decide

lemma monthKey_date_in_range (year : ℕ) (k : String)
    (hk : k ∈ monthKeysOf year) (d : ℕ) (hd1 : 1 ≤ d) (hd2 : d ≤ 31) :
    strLe (toString year ++ "-01-01") (k ++ "-" ++ pad2 d) = true ∧
    strLe (k ++ "-" ++ pad2 d) (toString year ++ "-12-31") = true := by
  rw [monthKeysOf] at hk
  obtain ⟨i, hi, rfl⟩ := List.mem_map.mp hk
  have hi' : i ∈ Finset.range 12 := Finset.mem_range.mpr (List.mem_range.mp hi)
  have hd' : d ∈ Finset.Icc 1 31 := Finset.mem_Icc.mpr ⟨hd1, hd2⟩
  have hbody := monthBody_bounds i hi' d hd'
  have hlit1 : ("-01-01" : String) = "-" ++ "01-01" := by decide
  have hlit2 : ("-12-31" : String) = "-" ++ "12-31" := by decide
  have e_start : toString year ++ "-01-01" =
      (toString year ++ "-") ++ "01-01" := by
    rw [hlit1, ← String.append_assoc]
  have e_end : toString year ++ "-12-31" =
      (toString year ++ "-") ++ "12-31" := by
    rw [hlit2, ← String.append_assoc]
  have e_date : ((toString year ++ "-") ++ pad2 (i + 1)) ++ "-" ++ pad2 d =
      (toString year ++ "-") ++ (pad2 (i + 1) ++ "-" ++ pad2 d) := by
    simp [String.append_assoc]
  constructor
  · rw [e_start, e_date, strLe_append_left]
    exact hbody.1
  · rw [e_end, e_date, strLe_append_left]
    exact hbody.2

set_option maxHeartbeats 1000000 in
/-- C6: `getMonthlyTotals(year)` returns exactly 12 entries, one per month
key `year-01` .. `year-12` in ascending order; each entry's income is the sum
of positive amounts and its expenses the sum of absolute values of
non-positive amounts of the tracked transactions dated in that month (dates
assumed well formed: whenever a stored date's 7-character prefix is one of
the year's month keys, the date is that prefix plus a day 01–31). -/
theorem getMonthlyTotals_spec (year : ℕ) (store : List Transaction)
    (hvalid : ∀ tx ∈ store, ∀ k ∈ monthKeysOf year, strTake tx.date 7 = k →
      ∃ d, 1 ≤ d ∧ d ≤ 31 ∧ tx.date = k ++ "-" ++ pad2 d) :
    (getMonthlyTotals year store).length = 12 ∧
    (getMonthlyTotals year store).map (fun e => e.month) = monthKeysOf year ∧
    ∀ e ∈ getMonthlyTotals year store,
      e.income = ((store.filter (fun tx => tx.track &&
        decide (strTake tx.date 7 = e.month) &&
        decide (0 < tx.amount))).map (fun tx => tx.amount)).sum ∧
      e.expenses = ((store.filter (fun tx => tx.track &&
        decide (strTake tx.date 7 = e.month) &&
        decide (tx.amount ≤ 0))).map (fun tx => |tx.amount|)).sum := by
  set L := store.filter (fun t => strLe (toString year ++ "-01-01") t.date &&
      strLe t.date (toString year ++ "-12-31") && t.track) with hL
  set Ls := jsSortBy (fun a b => strLe a.date b.date) L with hLs
  set M := Ls.foldl monthStep (initMonths (monthKeysOf year)) with hM
  have hfst : M.map Prod.fst = monthKeysOf year := by
    rw [hM, foldl_monthStep_fst, initMonths_fst _ (monthKeysOf_nodup year)]
  have hEq : getMonthlyTotals year store =
      M.map (fun p : String × MonthData =>
        ({ month := p.1, income := p.2.income,
           expenses := p.2.expenses } : MonthEntry)) := by
    rw [getMonthlyTotals, ← hL, ← hLs, ← hM]
    apply jsSortBy_of_pairwise
    rw [List.pairwise_map]
    have hkp : (M.map Prod.fst).Pairwise (fun a b => strLe a b = true) := by
      rw [hfst]
      exact monthKeysOf_pairwise year
    rw [List.pairwise_map] at hkp
    exact hkp
  have hmonths : (getMonthlyTotals year store).map (fun e => e.month) =
      monthKeysOf year := by
    rw [hEq, List.map_map, ← hfst]
    rfl
  refine ⟨?_, hmonths, ?_⟩
  · have hc := congrArg List.length hmonths
    rwa [List.length_map, monthKeysOf, List.length_map,
      List.length_range] at hc
  · intro e he
    rw [hEq] at he
    obtain ⟨p, hp, rfl⟩ := List.mem_map.mp he
    have hk : p.1 ∈ monthKeysOf year := by
      rw [← hfst]
      exact List.mem_map_of_mem Prod.fst hp
    have hnodup : (M.map Prod.fst).Nodup := by
      rw [hfst]
      exact monthKeysOf_nodup year
    have hgetM : mapGet M p.1 = some p.2 := mapGet_of_mem_nodup M p hnodup hp
    have hfold := foldl_monthStep_get Ls (initMonths (monthKeysOf year)) p.1 _
      (initMonths_get_mem (monthKeysOf year) p.1 hk)
    rw [← hM] at hfold
    have hval := Option.some.inj (hfold.symm.trans hgetM)
    have hinc : p.2.income = ((Ls.filter (fun tx =>
        decide (strTake tx.date 7 = p.1) && decide (0 < tx.amount))).map
        (fun tx => tx.amount)).sum := by
      rw [← hval]
      simp
    have hexp : p.2.expenses = ((Ls.filter (fun tx =>
        decide (strTake tx.date 7 = p.1) && decide (tx.amount ≤ 0))).map
        (fun tx => |tx.amount|)).sum := by
      rw [← hval]
      simp
    have hm :
        ({ month := p.1, income := p.2.income,
           expenses := p.2.expenses } : MonthEntry).month = p.1 := rfl
    have hmi :
        ({ month := p.1, income := p.2.income,
           expenses := p.2.expenses } : MonthEntry).income = p.2.income := rfl
    have hme :
        ({ month := p.1, income := p.2.income,
           expenses := p.2.expenses } : MonthEntry).expenses = p.2.expenses := rfl
    rw [hm, hmi, hme]
    have hperm2 : Ls.Perm L := by
      rw [hLs]
      exact jsSortBy_perm _ L
    constructor
    · rw [hinc,
        List.Perm.sum_eq (List.Perm.map (fun tx => tx.amount)
          (List.Perm.filter (fun tx => decide (strTake tx.date 7 = p.1) &&
            decide (0 < tx.amount)) hperm2)), hL, List.filter_filter]
      refine congrArg
        (fun l : List Transaction => (List.map (fun tx => tx.amount) l).sum)
        (List.filter_congr ?_)
      intro tx htx
      by_cases hpre : strTake tx.date 7 = p.1
      · obtain ⟨d, hd1, hd2, hdate⟩ := hvalid tx htx p.1 hk hpre
        have hrange := monthKey_date_in_range year p.1 hk d hd1 hd2
        have h1 : strLe (toString year ++ "-01-01") tx.date = true := by
          rw [hdate]
          exact hrange.1
        have h2 : strLe tx.date (toString year ++ "-12-31") = true := by
          rw [hdate]
          exact hrange.2
        simp [hpre, h1, h2, Bool.and_comm, Bool.and_left_comm, Bool.and_assoc]
      · simp [hpre]
    · rw [hexp]
      rw [List.Perm.sum_eq (List.Perm.map (fun tx => |tx.amount|)
          (List.Perm.filter (fun tx => decide (strTake tx.date 7 = p.1) &&
            decide (tx.amount ≤ 0)) hperm2))]
      rw [hL]
      rw [List.filter_filter]
      have hfeq : store.filter (fun tx =>
          (decide (strTake tx.date 7 = p.1) && decide (tx.amount ≤ 0)) &&
          (strLe (toString year ++ "-01-01") tx.date &&
            strLe tx.date (toString year ++ "-12-31") && tx.track)) =
          store.filter (fun tx => tx.track &&
            decide (strTake tx.date 7 = p.1) && decide (tx.amount ≤ 0)) := by
        refine List.filter_congr ?_
        intro tx htx
        by_cases hpre : strTake tx.date 7 = p.1
        · obtain ⟨d, hd1, hd2, hdate⟩ := hvalid tx htx p.1 hk hpre
          have hrange := monthKey_date_in_range year p.1 hk d hd1 hd2
          have h1 : strLe (toString year ++ "-01-01") tx.date = true := by
            rw [hdate]
            exact hrange.1
          have h2 : strLe tx.date (toString year ++ "-12-31") = true := by
            rw [hdate]
            exact hrange.2
          simp [hpre, h1, h2, Bool.and_comm, Bool.and_left_comm,
            Bool.and_assoc]
        · simp [hpre]
      rw [hfeq]

/-- Witness for C6: for year 2024 and a concrete two-transaction store, the
returned months are exactly the keys 2024-01 .. 2024-12 in order. -/
theorem getMonthlyTotals_spec_witness :
    (getMonthlyTotals 2024 [txHome, txSalary]).map (fun e => e.month) =
      monthKeysOf 2024 := by
  refine (getMonthlyTotals_spec 2024 [txHome, txSalary] ?_).2.1
  intro tx htx k hk hpre
  rcases List.mem_cons.mp htx with rfl | htx2
  · refine ⟨5, by norm_num, by norm_num, ?_⟩
    rw [← hpre]
    decide
  · rcases List.mem_cons.mp htx2 with rfl | h3
    · refine ⟨10, by norm_num, by norm_num, ?_⟩
      rw [← hpre]
      decide
    · simp at h3

/-- A stored category record (`CategoryRecord` in `database.ts`): optional
auto-increment id, unique name, ordered subcategory list. -/
structure CategoryRecord where
  id : Option ℕ
  name : String
  subcategories : List String
deriving Repr, DecidableEq

/-- A stored tag record (`TagRecord` in `database.ts`). -/
structure TagRecord where
  id : Option ℕ
  name : String
deriving Repr, DecidableEq

/-- The error taxonomy of the category registry operations. -/
inductive CatError where
  | notFound
  | alreadyExists
deriving Repr, DecidableEq

/-- `addSubcategory(categoryName, subcategoryName)` of `useCategories`:
look up the first record with the given name; fail with NotFound when
missing; fail with AlreadyExists when the subcategory list already includes
the name; otherwise update the record by id, appending the subcategory.
Returns the operation result together with the resulting store. -/
def addSubcategory (store : List CategoryRecord)
    (categoryName subcategoryName : String) :
    Except CatError Unit × List CategoryRecord :=
  match store.find? (fun r => r.name = categoryName) with
  | none => (Except.error CatError.notFound, store)
  | some record =>
    if record.subcategories.contains subcategoryName then
      (Except.error CatError.alreadyExists, store)
    else
      (Except.ok (),
        store.map (fun r =>
          if r.id = record.id then
            { r with
              subcategories := record.subcategories ++ [subcategoryName] }
          else r))

/-- C7: adding a subcategory that is already present fails with
AlreadyExists and leaves the store (hence that category's subcategory list,
in length and contents) unchanged; adding to a missing category fails with
NotFound. -/
theorem addSubcategory_spec (store : List CategoryRecord)
    (categoryName subName : String) :
    (∀ record, store.find? (fun r => r.name = categoryName) = some record →
      subName ∈ record.subcategories →
      addSubcategory store categoryName subName =
        (Except.error CatError.alreadyExists, store)) ∧
    (store.find? (fun r => r.name = categoryName) = none →
      addSubcategory store categoryName subName =
        (Except.error CatError.notFound, store)) := by
  constructor
  · intro record hfind hmem
    have hc : record.subcategories.contains subName = true := by
      simpa using hmem
    simp only [addSubcategory, hfind, hc, if_pos]
  · intro hfind
    simp only [addSubcategory, hfind]

/-- The concrete category record used by the C7 witness. -/
def homeRecord : CategoryRecord :=
  { id := some 1, name := "Home", subcategories := ["Rent", "Other"] }

/-- Witness for C7: adding the existing subcategory Rent to Home fails with
AlreadyExists and returns the store unchanged, and adding to a missing
category fails with NotFound. -/
theorem addSubcategory_spec_witness :
    addSubcategory [homeRecord] "Home" "Rent" =
      (Except.error CatError.alreadyExists, [homeRecord]) ∧
    addSubcategory [homeRecord] "Groceries" "Fruit" =
      (Except.error CatError.notFound, [homeRecord]) := by
  constructor
  · exact (addSubcategory_spec [homeRecord] "Home" "Rent").1 homeRecord
      (by decide) (by decide)
  · exact (addSubcategory_spec [homeRecord] "Groceries" "Fruit").2 (by decide)

/-- A generic storage failure surfaced by the record store. -/
structure StoreError where
  message : String
deriving Repr, DecidableEq

/-- The transactions live query body of `useTransactions`/`useExpenseData`:
`try { return await ...toArray() } catch { return [] }`. -/
def transactionsLiveQuery
    (result : Except StoreError (List Transaction)) : List Transaction :=
  match result with
  | Except.ok txs => txs
  | Except.error _ => []

/-- The categories live query body of `useExpenseData`: convert records to a
name-keyed object, or an empty object on a store error. -/
def categoriesLiveQuery (result : Except StoreError (List CategoryRecord)) :
    List (String × List String) :=
  match result with
  | Except.ok records =>
    records.foldl (fun m r => mapSet m r.name r.subcategories) []
  | Except.error _ => []

/-- The tags live query body of `useExpenseData`: tag names, or an empty
list on a store error. -/
def tagsLiveQuery (result : Except StoreError (List TagRecord)) :
    List String :=
  match result with
  | Except.ok records => records.map (fun t => t.name)
  | Except.error _ => []

/-- C8: every read-only live query swallows any store error and degrades to
an empty result set instead of propagating it. -/
theorem liveQueries_swallow_errors (e : StoreError) :
    transactionsLiveQuery (Except.error e) = [] ∧
    categoriesLiveQuery (Except.error e) = [] ∧
    tagsLiveQuery (Except.error e) = [] :=
  ⟨rfl, rfl, rfl⟩
